import Mathlib

/-!
Verification development for the comics-n-stuff GraphQL API.

The definitions below are a shallow embedding of the repository's
resolver/loader core:

* `clampLimit` / `clampOffset` and the connection resolvers come from
  `src/graphql/resolvers/index.ts`;
* `validateSearch` / `validateDate` / `validatePagination` are translated
  from `src/__tests__/validation.test.ts`, which states that they mirror
  the private validation functions of `resolvers/index.ts`;
* the batching-loader state machine models the `dataloader` dependency's
  documented batch-window/caching semantics, with the repository's batch
  functions (`createByIdLoader`, `storiesByIssueId`, `creditsByStoryId`)
  embedded from `src/lib/loaders.ts`;
* `withErrorHandling` comes from `src/graphql/resolvers/index.ts` and
  `formatError` from `src/index.ts`.

The relational store is modelled as a plain list of rows (the snapshot a
transaction observes); Prisma `findMany` becomes filter + stable sort,
`findUnique` becomes `find?`, and `count` becomes `length` over the same
snapshot value.
-/

deriving instance DecidableEq for Except

/-- A GraphQL error as the code builds it:
`new GraphQLError(message, { extensions: { code } })`. -/
structure GraphQLErr where
  message : String
  code : String
deriving DecidableEq, Repr

/-- Constant `DEFAULT_LIMIT` of `resolvers/index.ts`. -/
def DEFAULT_LIMIT : Int := 20

/-- Constant `MAX_LIMIT` of `resolvers/index.ts`. -/
def MAX_LIMIT : Int := 100

/-- Function `clampLimit` from `resolvers/index.ts`:
`if (!limit || limit < 1) return DEFAULT_LIMIT; return Math.min(limit, MAX_LIMIT)`.
`!limit` is JS falsiness, i.e. the argument is absent or `0`. -/
def clampLimit : Option Int → Int
  | none => DEFAULT_LIMIT
  | some l => if l == 0 || l < 1 then DEFAULT_LIMIT else min l MAX_LIMIT

/-- Function `clampOffset` from `resolvers/index.ts`:
`offset && offset > 0 ? offset : 0`. -/
def clampOffset : Option Int → Int
  | none => 0
  | some o => if o != 0 && decide (o > 0) then o else 0

/-- Constant `MAX_SEARCH_LENGTH` from `validation.test.ts`. -/
def MAX_SEARCH_LENGTH : Nat := 200

/-- Function `validateSearch` as given in `validation.test.ts` (stated there to mirror
the private function of `resolvers/index.ts`):
reject a truthy search string longer than 200 characters. -/
def validateSearch : Option String → Except GraphQLErr Unit
  | none => .ok ()
  | some s =>
    if s != "" && decide (s.length > MAX_SEARCH_LENGTH) then
      .error ⟨"Search string must be 200 characters or fewer.", "BAD_USER_INPUT"⟩
    else .ok ()

/-- The `DATE_PATTERN` regular expression of `validation.test.ts`:
four digits, dash, two digits, dash, two digits, anchored at both ends. -/
def datePatternTest (s : String) : Bool :=
  match s.toList with
  | [y1, y2, y3, y4, h1, m1, m2, h2, d1, d2] =>
    y1.isDigit && y2.isDigit && y3.isDigit && y4.isDigit &&
    h1 == '-' && m1.isDigit && m2.isDigit && h2 == '-' &&
    d1.isDigit && d2.isDigit
  | _ => false

/-- Function `validateDate` as given in `validation.test.ts`. -/
def validateDate (value : Option String) (fieldName : String) :
    Except GraphQLErr Unit :=
  match value with
  | none => .ok ()
  | some v =>
    if v != "" && !(datePatternTest v) then
      .error ⟨fieldName ++ " must be in YYYY-MM-DD format.", "BAD_USER_INPUT"⟩
    else .ok ()

/-- Function `validatePagination` as given in `validation.test.ts`:
an explicitly supplied limit outside [1,100] or an explicitly supplied
negative offset is rejected with BAD_USER_INPUT. -/
def validatePagination (limit offset : Option Int) : Except GraphQLErr Unit :=
  if (match limit with
      | some l => decide (l < 1) || decide (l > MAX_LIMIT)
      | none => false) then
    .error ⟨"limit must be between 1 and 100.", "BAD_USER_INPUT"⟩
  else if (match offset with
      | some o => decide (o < 0)
      | none => false) then
    .error ⟨"offset must be non-negative.", "BAD_USER_INPUT"⟩
  else .ok ()

/-! ### Entity rows (the columns the embedded code touches) -/

/-- A `publisher` row. -/
structure Publisher where
  id : Int
  name : String
  deleted : Int
deriving DecidableEq, Repr

/-- A `series` row. -/
structure Series where
  id : Int
  sortName : String
  publisherId : Int
  deleted : Int
deriving DecidableEq, Repr

/-- An `issue` row. -/
structure Issue where
  id : Int
  seriesId : Int
  keyDate : String
  onSaleDate : String
  sortCode : Int
  variantOfId : Option Int
  deleted : Int
deriving DecidableEq, Repr

/-- A `story` row. -/
structure Story where
  id : Int
  issueId : Int
  sequenceNumber : Int
  deleted : Int
deriving DecidableEq, Repr

/-- A `storyCredit` row. -/
structure StoryCredit where
  id : Int
  storyId : Int
  deleted : Int
deriving DecidableEq, Repr

/-! ### Prisma query building blocks -/

/-- Substring test on char lists (JS `String.prototype.includes` shape). -/
def charsContain (hay pat : List Char) : Bool :=
  hay.tails.any (fun t => pat.isPrefixOf t)

/-- Prisma `{ contains: search, mode: "insensitive" }` on a text column:
substring match after per-character lowercasing. -/
def containsInsensitive (hay pat : String) : Bool :=
  charsContain (hay.toList.map Char.toLower) (pat.toList.map Char.toLower)

/-- JS truthiness of an optional string argument (`""` is falsy), used by
the `...(search && { ... })` spread guards in the resolvers. -/
def strTruthy : Option String → Bool
  | none => false
  | some s => s != ""

/-- JS truthiness of an optional numeric argument (`0` is falsy). -/
def intTruthy : Option Int → Bool
  | none => false
  | some n => n != 0

/-- A paginated connection result `{ items, totalCount }`. -/
structure Connection (α : Type) where
  items : List α
  totalCount : Nat
deriving DecidableEq, Repr

/-! ### Root connection resolvers -/

/-- Arguments of `Query.publishers`. -/
structure SearchArgs where
  limit : Option Int
  offset : Option Int
  search : Option String

/-- The `where` object built by `Query.publishers`:
`{ deleted: 0, ...(search && { name: { contains: search, mode: "insensitive" } }) }`. -/
def publisherWhere (search : Option String) (p : Publisher) : Bool :=
  p.deleted == 0 &&
    (if strTruthy search then containsInsensitive p.name (search.getD "") else true)

/-- Resolver `Query.publishers` from `resolvers/index.ts`: one transaction running
`findMany({take, skip, where, orderBy: {name: "asc"}})` and `count({where})`
against the same snapshot `db`. -/
def publishersResolver (db : List Publisher) (args : SearchArgs) :
    Connection Publisher :=
  { items := ((List.insertionSort (fun a b : Publisher => a.name ≤ b.name)
        (db.filter (publisherWhere args.search))).drop
          (clampOffset args.offset).toNat).take (clampLimit args.limit).toNat,
    totalCount := (db.filter (publisherWhere args.search)).length }

/-- Arguments of `Query.issues`. -/
structure IssuesArgs where
  limit : Option Int
  offset : Option Int
  seriesId : Option Int
  keyDate : Option String
  onSaleDate : Option String

/-- The `where` object built by `Query.issues`:
`{ deleted: 0, variantOfId: null, ...(seriesId && {seriesId}), ...(keyDate && {keyDate}), ...(onSaleDate && {onSaleDate}) }`. -/
def issueWhere (args : IssuesArgs) (x : Issue) : Bool :=
  x.deleted == 0 && x.variantOfId == none &&
  (if intTruthy args.seriesId then x.seriesId == args.seriesId.getD 0 else true) &&
  (if strTruthy args.keyDate then x.keyDate == args.keyDate.getD "" else true) &&
  (if strTruthy args.onSaleDate then x.onSaleDate == args.onSaleDate.getD "" else true)

/-- Resolver `Query.issues` from `resolvers/index.ts`: transaction of
`findMany({take, skip, where, orderBy: {sortCode: "asc"}})` and `count({where})`. -/
def issuesResolver (db : List Issue) (args : IssuesArgs) : Connection Issue :=
  { items := ((List.insertionSort (fun a b : Issue => a.sortCode ≤ b.sortCode)
        (db.filter (issueWhere args))).drop
          (clampOffset args.offset).toNat).take (clampLimit args.limit).toNat,
    totalCount := (db.filter (issueWhere args)).length }

/-- Resolver `Query.issue` from `resolvers/index.ts`:
`prisma.issue.findUnique({ where: { id } })` — no deleted or variant filter. -/
def issueFindUnique (db : List Issue) (id : Int) : Option Issue :=
  db.find? (fun x => x.id == id)

/-- Resolver `Issue.variants` from `resolvers/index.ts`:
`prisma.issue.findMany({ where: { variantOfId: parent.id, deleted: 0 } })`. -/
def issueVariantsResolver (db : List Issue) (parent : Issue) : List Issue :=
  db.filter (fun x => x.variantOfId == some parent.id && x.deleted == 0)

/-- Lookup `prisma.publisher.findUnique({ where: { id } })`. -/
def publisherFindUnique (db : List Publisher) (id : Int) : Option Publisher :=
  db.find? (fun p => p.id == id)

/-- Resolver `Series.publisher` from `resolvers/index.ts`: a direct
`prisma.publisher.findUnique({ where: { id: parent.publisherId } })` per
parent. The second component records the storage queries this resolver
issues: one `findUnique` call carrying its single key. -/
def seriesPublisherResolver (db : List Publisher) (parent : Series) :
    Option Publisher × List (List Int) :=
  (publisherFindUnique db parent.publisherId, [[parent.publisherId]])

/-- Resolving the `Series.publisher` field for every parent entity of one
operation, concatenating the storage-query log. -/
def resolveSeriesPublisherAll (db : List Publisher) (parents : List Series) :
    List (Option Publisher) × List (List Int) :=
  (parents.map (fun s => (seriesPublisherResolver db s).1),
   (parents.map (fun s => (seriesPublisherResolver db s).2)).flatten)

/-! ### The batching loader

`src/lib/loaders.ts` builds every loader as `new DataLoader(batchFn)` with
default options. The `dataloader` dependency is external, so its documented
batch-window/cache mechanics (spec §4.1, §5) are modelled as a small state
machine; the repository's batch functions are embedded from source. -/

abbrev Key := Int

/-- A generic record with the `id` column `createByIdLoader` requires
(`T extends { id: number }`), plus an opaque payload. -/
structure RecRow where
  id : Int
  payload : Int
deriving DecidableEq, Repr

/-- The JS `Map` built by `createByIdLoader`
(`new Map(items.map((item) => [item.id, item]))`): `Map.set` overwrites, so
`map.get(id)` returns the last item carrying that id. -/
def mapGetById (items : List RecRow) (id : Int) : Option RecRow :=
  items.reverse.find? (fun r => r.id == id)

/-- The batch function of `createByIdLoader` from `src/lib/loaders.ts`:
`const map = new Map(items.map((item) => [item.id, item]));`
`return ids.map((id) => map.get(id) ?? null);`. -/
def createByIdLoaderBatch (items : List RecRow) (ids : List Key) :
    List (Option RecRow) :=
  ids.map (fun id => mapGetById items id)

/-- Modelled from the spec: the per-request state of one batch loader of the
external `dataloader` dependency — cache entries already settled in earlier
batch windows, the keys queued in the current window (first-request order),
and the log of fetch calls dispatched so far. -/
structure DLState where
  settled : List (Key × Except String (Option RecRow))
  pending : List Key
  fetchLog : List (List Key)
deriving Repr

/-- Every key holding a cached promise: settled ones plus the queued ones. -/
def DLState.keys (s : DLState) : List Key :=
  s.settled.map Prod.fst ++ s.pending

/-- Modelled from the spec: `load(key)` — a key with a cached promise
(settled or already queued) reuses it; a new key is queued for the current
window's single fetch. -/
def DLState.load (s : DLState) (k : Key) : DLState :=
  if k ∈ s.keys then s else { s with pending := s.pending ++ [k] }

/-- Settling one dispatched batch: a successful fetch distributes the batch
function's results positionally over the batch keys; a failed fetch settles
every key of the batch with that same failure. -/
def settleBatch (fetch : List Key → Except String (List RecRow)) (p : List Key) :
    List (Key × Except String (Option RecRow)) :=
  match fetch p with
  | .ok items =>
    (p.zip (createByIdLoaderBatch items p)).map (fun kv => (kv.1, .ok kv.2))
  | .error e => p.map (fun k => (k, .error e))

/-- Modelled from the spec: closing a batch window dispatches exactly one
fetch carrying the queued keys (none when the queue is empty), settles
them, and clears the queue. -/
def DLState.dispatch (fetch : List Key → Except String (List RecRow))
    (s : DLState) : DLState :=
  if s.pending.isEmpty then s
  else { settled := s.settled ++ settleBatch fetch s.pending,
         pending := [],
         fetchLog := s.fetchLog ++ [s.pending] }

/-- The fresh loader state of a new request. -/
def initDL : DLState := ⟨[], [], []⟩

/-- One batch window: the `load` calls issued synchronously inside it, then
the dispatch at its close. -/
def runWindow (fetch : List Key → Except String (List RecRow))
    (s : DLState) (w : List Key) : DLState :=
  DLState.dispatch fetch (w.foldl DLState.load s)

/-- A whole per-request execution of one loader: a list of batch windows. -/
def runLoader (fetch : List Key → Except String (List RecRow))
    (script : List (List Key)) : DLState :=
  script.foldl (runWindow fetch) initDL

/-- The outcome a `load(k)` caller observes once everything has settled. -/
def DLState.outcome (s : DLState) (k : Key) :
    Option (Except String (Option RecRow)) :=
  (s.settled.find? (fun kv => kv.1 == k)).map Prod.snd

/-! ### One-to-many loaders (`storiesByIssueId`, `creditsByStoryId`) -/

/-- Operation `map.set(k, v)` on an association list: overwrite the binding if the key
is present, append it otherwise. -/
def assocSet {α : Type} : List (Int × List α) → Int → List α → List (Int × List α)
  | [], k, v => [(k, v)]
  | (k₀, v₀) :: rest, k, v =>
    if k₀ == k then (k, v) :: rest else (k₀, v₀) :: assocSet rest k v

/-- The grouping loop shared by the one-to-many batch functions:
`const list = map.get(x.key) ?? []; list.push(x); map.set(x.key, list);`. -/
def groupFold {α : Type} (key : α → Int) (xs : List α) :
    List (Int × List α) :=
  xs.foldl (fun m x => assocSet m (key x) (((m.lookup (key x)).getD []) ++ [x])) []

/-- Intra-list order of the `storiesByIssueId` fetch:
`orderBy: { sequenceNumber: "asc" }`. -/
def storySeqLe (a b : Story) : Prop := a.sequenceNumber ≤ b.sequenceNumber

instance : DecidableRel storySeqLe := fun a b =>
  inferInstanceAs (Decidable (a.sequenceNumber ≤ b.sequenceNumber))

instance : IsTrans Story storySeqLe :=
  ⟨fun _ _ _ h₁ h₂ => le_trans h₁ h₂⟩

instance : IsTotal Story storySeqLe :=
  ⟨fun a b => le_total a.sequenceNumber b.sequenceNumber⟩

/-- The batch function of `storiesByIssueId` from `src/lib/loaders.ts`:
fetch `{ where: { issueId: { in: issueIds }, deleted: 0 }, orderBy:
{ sequenceNumber: "asc" } }`, group by `issueId`, then
`issueIds.map((id) => map.get(id) ?? [])`. -/
def storiesByIssueIdBatch (db : List Story) (issueIds : List Key) :
    List (List Story) :=
  issueIds.map (fun id =>
    ((groupFold (fun st => st.issueId)
        (List.insertionSort storySeqLe
          (db.filter (fun st => st.deleted == 0 && issueIds.contains st.issueId)))).lookup
      id).getD [])

/-- The unpaginated direct fetch for a single parent with the same filter
and ordering the batched fetch uses:
`story.findMany({ where: { issueId, deleted: 0 }, orderBy: { sequenceNumber: "asc" } })`. -/
def storiesForIssueDirect (db : List Story) (issueId : Key) : List Story :=
  List.insertionSort storySeqLe
    (db.filter (fun st => st.issueId == issueId && st.deleted == 0))

/-- The batch function of `creditsByStoryId` from `src/lib/loaders.ts`:
fetch `{ where: { storyId: { in: storyIds }, deleted: 0 } }` — no `orderBy`
— group by `storyId`, then `storyIds.map((id) => map.get(id) ?? [])`. -/
def creditsByStoryIdBatch (db : List StoryCredit) (storyIds : List Key) :
    List (List StoryCredit) :=
  storyIds.map (fun id =>
    ((groupFold (fun c => c.storyId)
        (db.filter (fun c => c.deleted == 0 && storyIds.contains c.storyId))).lookup
      id).getD [])

/-! ### Error classification (`withErrorHandling`, `formatError`) -/

/-- What a resolver body can throw: a `GraphQLError` the code constructed
deliberately, or any other runtime error
(`err instanceof GraphQLError` is false). -/
inductive ThrownErr where
  | gql (e : GraphQLErr)
  | raw (detail : String)
deriving DecidableEq, Repr

/-- Wrapper `withErrorHandling` from `resolvers/index.ts`, applied to one wrapped
resolver invocation's outcome: a `GraphQLError` is re-thrown untouched; any
other error is logged (`console.error(err)`) and replaced by the generic
INTERNAL_SERVER_ERROR `GraphQLError`. First component: log lines emitted. -/
def withErrorHandling {α : Type} (r : Except ThrownErr α) :
    List String × Except GraphQLErr α :=
  match r with
  | .ok a => ([], .ok a)
  | .error (.gql e) => ([], .error e)
  | .error (.raw d) =>
    ([d], .error ⟨"An internal error occurred.", "INTERNAL_SERVER_ERROR"⟩)

/-- Hook `formatError` from `src/index.ts`: an INTERNAL_SERVER_ERROR-coded error
is logged again (`logger.error`) and, in production mode only, its message
is replaced by the generic one; any other error passes through unchanged. -/
def formatError (production : Bool) (e : GraphQLErr) :
    List String × GraphQLErr :=
  if e.code == "INTERNAL_SERVER_ERROR" then
    (["Internal server error in resolver"],
     if production then ⟨"An internal error occurred.", "INTERNAL_SERVER_ERROR"⟩
     else e)
  else ([], e)

/-- One inbound operation: every field resolver outcome passes through its
own `withErrorHandling` wrapper (the source wraps each resolver), then each
error of the response passes through `formatError`. Returns all server-side
log lines plus the per-field results. -/
def runOperation {α : Type} (production : Bool)
    (fields : List (Except ThrownErr α)) :
    List String × List (Except GraphQLErr α) :=
  let formatted := fields.map (fun f =>
    let wr := withErrorHandling f
    match wr.2 with
    | .ok a => (wr.1, Except.ok a)
    | .error e =>
      let fe := formatError production e
      (wr.1 ++ fe.1, Except.error fe.2))
  ((formatted.map Prod.fst).flatten, formatted.map Prod.snd)

/-! ### Concrete fixtures used by witnesses and counterexamples -/

/-- A sample publisher row. -/
def pubRow : Publisher := ⟨7, "DC", 0⟩

/-- A sample series row pointing at `pubRow`. -/
def seriesA : Series := ⟨100, "Alpha", 7, 0⟩

/-- A second series row pointing at the same publisher. -/
def seriesB : Series := ⟨101, "Beta", 7, 0⟩

/-- A canonical (non-variant) issue row. -/
def primaryIssue : Issue := ⟨1, 10, "1986-02-01", "", 1, none, 0⟩

/-- A variant edition of `primaryIssue`. -/
def variantIssue : Issue := ⟨2, 10, "1986-02-01", "", 5, some 1, 0⟩

/-- A two-row issue table. -/
def issuesDb : List Issue := [primaryIssue, variantIssue]

/-- A credit row of story 1. -/
def creditA : StoryCredit := ⟨1, 1, 0⟩

/-- A second credit row of story 1. -/
def creditB : StoryCredit := ⟨2, 1, 0⟩

/-- A 201-character search argument. -/
def longSearch : String := String.mk (List.replicate 201 'a')

/-! ### C4 — connection/pagination contract -/

/-- C4: for the root `publishers` connection, `totalCount` is the count of
rows matching the filter alone and does not change when limit/offset vary;
`items.length` never exceeds the effective limit; an offset at or beyond
`totalCount` yields empty `items`; and every item comes from the same
snapshot filtered by the same predicate used for `totalCount`. -/
theorem publishers_connection_contract (db : List Publisher)
    (lim₁ off₁ lim₂ off₂ : Option Int) (q : Option String) :
    (publishersResolver db ⟨lim₁, off₁, q⟩).totalCount
        = (publishersResolver db ⟨lim₂, off₂, q⟩).totalCount
    ∧ (publishersResolver db ⟨lim₁, off₁, q⟩).totalCount
        = (db.filter (publisherWhere q)).length
    ∧ (publishersResolver db ⟨lim₁, off₁, q⟩).items.length
        ≤ (clampLimit lim₁).toNat
    ∧ ((db.filter (publisherWhere q)).length ≤ (clampOffset off₁).toNat →
        (publishersResolver db ⟨lim₁, off₁, q⟩).items = [])
    ∧ (∀ x ∈ (publishersResolver db ⟨lim₁, off₁, q⟩).items,
        x ∈ db ∧ publisherWhere q x = true) := by
  refine ⟨rfl, rfl, List.length_take_le _ _, ?_, ?_⟩
  · intro h
    show ((List.insertionSort _ _).drop _).take _ = []
    rw [List.drop_eq_nil_iff.mpr
        (by rw [(List.perm_insertionSort _ _).length_eq]; exact h)]
    exact List.take_nil
  · intro x hx
    have hx1 : x ∈ List.insertionSort (fun a b : Publisher => a.name ≤ b.name)
        (db.filter (publisherWhere q)) :=
      List.drop_subset _ _ (List.take_subset _ _ hx)
    have hx2 : x ∈ db.filter (publisherWhere q) :=
      ((List.perm_insertionSort _ _).mem_iff).1 hx1
    exact ⟨(List.mem_filter.1 hx2).1, (List.mem_filter.1 hx2).2⟩

/-- Witness for C4 at a concrete snapshot: offset 5 lies beyond the single
matching row, so the page is empty. -/
theorem publishers_connection_contract_witness :
    (publishersResolver [pubRow] ⟨some 1, some 5, none⟩).items = [] :=
  (publishers_connection_contract [pubRow] (some 1) (some 5) none none none).2.2.2.1
    (by decide)

/-! ### C10 — the issues list excludes variant editions -/

/-- C10 (amended): every item of the root `issues` connection satisfies
`variantOfId = null` and `deleted = 0`, `totalCount` counts exactly the rows
passing the same `where` filter, that filter admits only non-variant
non-deleted rows, and `Issue.variants` returns exactly the non-deleted
variants of its parent. -/
theorem issues_exclude_variants (db : List Issue) (args : IssuesArgs) :
    (∀ x ∈ (issuesResolver db args).items,
        x.variantOfId = none ∧ x.deleted = 0 ∧ x ∈ db)
    ∧ (issuesResolver db args).totalCount = (db.filter (issueWhere args)).length
    ∧ (∀ x : Issue, issueWhere args x = true →
        x.variantOfId = none ∧ x.deleted = 0)
    ∧ (∀ parent : Issue, ∀ v ∈ issueVariantsResolver db parent,
        v.variantOfId = some parent.id ∧ v.deleted = 0) := by
  have hwhere : ∀ x : Issue, issueWhere args x = true →
      x.variantOfId = none ∧ x.deleted = 0 := by
    intro x hx
    simp only [issueWhere, Bool.and_eq_true, beq_iff_eq] at hx
    exact ⟨hx.1.1.1.2, hx.1.1.1.1⟩
  refine ⟨?_, rfl, hwhere, ?_⟩
  · intro x hx
    have hx1 : x ∈ List.insertionSort (fun a b : Issue => a.sortCode ≤ b.sortCode)
        (db.filter (issueWhere args)) :=
      List.drop_subset _ _ (List.take_subset _ _ hx)
    have hx2 : x ∈ db.filter (issueWhere args) :=
      ((List.perm_insertionSort _ _).mem_iff).1 hx1
    exact ⟨(hwhere x (List.mem_filter.1 hx2).2).1,
      (hwhere x (List.mem_filter.1 hx2).2).2, (List.mem_filter.1 hx2).1⟩
  · intro parent v hv
    have hv' := (List.mem_filter.1 hv).2
    simp only [issueVariantsResolver, Bool.and_eq_true, beq_iff_eq] at hv'
    exact hv'

/-- Witness for C10 on the two-row table: the page item is the primary
issue, non-variant and non-deleted. -/
theorem issues_exclude_variants_witness :
    primaryIssue.variantOfId = none ∧ primaryIssue.deleted = 0
      ∧ primaryIssue ∈ issuesDb :=
  (issues_exclude_variants issuesDb ⟨none, none, none, none, none⟩).1
    primaryIssue (by decide)

/-- Counterexample for C10 as stated: a variant edition is also reachable
outside `Issue.variants` — `Query.issue` returns it directly by id, with its
`variantOfId` set. -/
theorem query_issue_returns_variant :
    issueFindUnique issuesDb 2 = some variantIssue
    ∧ variantIssue.variantOfId = some 1 := by
  exact ⟨rfl, rfl⟩

/-! ### C5 — by-id batch function alignment -/

/-- C5: the `createByIdLoader` batch function returns exactly one result per
requested key, positionally aligned with the request order, and a key
matching no fetched record maps to `null` (absence), never an error. -/
theorem createByIdLoaderBatch_contract (items : List RecRow) (ids : List Key) :
    (createByIdLoaderBatch items ids).length = ids.length
    ∧ (∀ i : Nat, (createByIdLoaderBatch items ids)[i]?
        = (ids[i]?).map (fun id => mapGetById items id))
    ∧ (∀ id : Int, (∀ r ∈ items, r.id ≠ id) → mapGetById items id = none) := by
  refine ⟨List.length_map _ _, fun i => List.getElem?_map _ _ _, fun id h => ?_⟩
  simp only [mapGetById, List.find?_eq_none, List.mem_reverse, beq_iff_eq]
  intro r hr
  exact h r hr

/-- Witness for C5: key 2 matches no fetched record and resolves to `none`. -/
theorem createByIdLoaderBatch_contract_witness :
    mapGetById [⟨1, 10⟩] 2 = none :=
  (createByIdLoaderBatch_contract [⟨1, 10⟩] [2]).2.2 2 (by decide)

/-! ### C7 — explicit out-of-range pagination values are silently clamped -/

/-- C7 (code evaluated at the failing inputs): the resolvers' `clampLimit`
and `clampOffset` silently map explicit `limit = 0` to the default 20,
`limit = 101` to 100 and a negative offset to 0, and `Query.publishers`
returns a normal page for `limit = 0`; the tested-but-absent
`validatePagination` (mirrored in `validation.test.ts`) would instead
reject each of those explicit values with BAD_USER_INPUT, while absent
values correctly default to 20 and 0. -/
theorem pagination_clamped_not_rejected :
    clampLimit (some 0) = 20
    ∧ clampLimit (some 101) = 100
    ∧ clampOffset (some (-5)) = 0
    ∧ clampLimit none = 20
    ∧ clampOffset none = 0
    ∧ publishersResolver [pubRow] ⟨some 0, none, none⟩ = ⟨[pubRow], 1⟩
    ∧ validatePagination (some 0) none
        = .error ⟨"limit must be between 1 and 100.", "BAD_USER_INPUT"⟩
    ∧ validatePagination (some 101) none
        = .error ⟨"limit must be between 1 and 100.", "BAD_USER_INPUT"⟩
    ∧ validatePagination none (some (-1))
        = .error ⟨"offset must be non-negative.", "BAD_USER_INPUT"⟩
    ∧ validatePagination none none = .ok () := by
  refine ⟨rfl, rfl, rfl, rfl, rfl, ?_, rfl, rfl, rfl, rfl⟩
  rfl

/-! ### C8 — malformed search/date arguments reach the fetch -/

set_option maxRecDepth 40000

/-- C8 (code evaluated at the failing inputs): a 201-character search string
and a malformed date are not rejected by the resolvers — `Query.publishers`
executes the fetch with the oversized string as a `contains` filter and
`Query.issues` applies the malformed date as an exact `keyDate` filter —
while the tested-but-absent validators (mirrored in `validation.test.ts`)
would reject both with BAD_USER_INPUT before any fetch and accept the
well-formed date. -/
theorem invalid_inputs_reach_fetch :
    publishersResolver [pubRow] ⟨none, none, some longSearch⟩ = ⟨[], 0⟩
    ∧ issuesResolver issuesDb ⟨none, none, none, some "1986", none⟩ = ⟨[], 0⟩
    ∧ issuesResolver issuesDb ⟨none, none, none, some "02/01/1986", none⟩
        = ⟨[], 0⟩
    ∧ validateSearch (some longSearch)
        = .error ⟨"Search string must be 200 characters or fewer.", "BAD_USER_INPUT"⟩
    ∧ validateDate (some "02/01/1986") "keyDate"
        = .error ⟨"keyDate must be in YYYY-MM-DD format.", "BAD_USER_INPUT"⟩
    ∧ validateDate (some "1986") "keyDate"
        = .error ⟨"keyDate must be in YYYY-MM-DD format.", "BAD_USER_INPUT"⟩
    ∧ validateDate (some "1986-02-01") "keyDate" = .ok ()
    ∧ validateSearch none = .ok () := by
  decide

set_option maxRecDepth 512

/-! ### C3 — relationship fields fetch directly, not through the registry -/

/-- C3 (code evaluated at the failing input): resolving `Series.publisher`
for two sibling series sharing publisher 7 issues one direct `findUnique`
per parent — two storage calls carrying the duplicated key — whereas the
per-request batching loader modelled from the spec coalesces the same two
`load` calls into a single fetch of the deduplicated key. -/
theorem series_publisher_bypasses_registry :
    (resolveSeriesPublisherAll [pubRow] [seriesA, seriesB]).2 = [[7], [7]]
    ∧ (resolveSeriesPublisherAll [pubRow] [seriesA, seriesB]).1
        = [some pubRow, some pubRow]
    ∧ (runLoader (fun _ => .ok [⟨7, 0⟩]) [[7, 7]]).fetchLog = [[7]]
    ∧ (resolveSeriesPublisherAll [pubRow] [seriesA, seriesB]).2
        ≠ (runLoader (fun _ => .ok [⟨7, 0⟩]) [[7, 7]]).fetchLog := by
  refine ⟨rfl, rfl, rfl, ?_⟩
  decide

/-! ### C6 counterexample — credits groups follow fetch order -/

/-- Counterexample for C6 as stated: `creditsByStoryId` applies no intra-group
ordering, so permuting the order in which the fetch returns the children of
story 1 permutes the resolved sequence. -/
theorem creditsByStoryId_order_follows_fetch :
    creditsByStoryIdBatch [creditA, creditB] [1] = [[creditA, creditB]]
    ∧ creditsByStoryIdBatch [creditB, creditA] [1] = [[creditB, creditA]]
    ∧ creditsByStoryIdBatch [creditA, creditB] [1]
        ≠ creditsByStoryIdBatch [creditB, creditA] [1] := by
  refine ⟨rfl, rfl, ?_⟩
  decide

/-! ### C9 counterexample — internal errors are logged per field -/

/-- Counterexample for C9 as stated: one underlying fetch failure hitting two
fields is logged four times (once in each field's `withErrorHandling`
wrapper and once more per error in `formatError`), not exactly once at the
outermost boundary. -/
theorem internal_error_logged_per_field :
    (runOperation true
      ([Except.error (ThrownErr.raw "db down"),
        Except.error (ThrownErr.raw "db down")] :
        List (Except ThrownErr Nat))).1.length = 4
    ∧ (runOperation true
      ([Except.error (ThrownErr.raw "db down"),
        Except.error (ThrownErr.raw "db down")] :
        List (Except ThrownErr Nat))).1.length ≠ 1 := by
  refine ⟨rfl, ?_⟩
  decide

/-! ### C1, C2 — batch-window coalescing and per-request caching

Invariants of the loader state machine: the settled keys are exactly the
concatenation of all dispatched fetches, and every cached key (settled or
queued) is distinct. -/

/-- Loading a key never changes what is already settled. -/
theorem load_settled (s : DLState) (k : Key) : (s.load k).settled = s.settled := by
  unfold DLState.load; split <;> rfl

/-- Loading a key never dispatches a fetch. -/
theorem load_fetchLog (s : DLState) (k : Key) :
    (s.load k).fetchLog = s.fetchLog := by
  unfold DLState.load; split <;> rfl

/-- Settled entries survive a whole window of load calls. -/
theorem foldl_load_settled :
    ∀ (w : List Key) (s : DLState), (w.foldl DLState.load s).settled = s.settled
  | [], _ => rfl
  | k :: w, s => by
    rw [List.foldl_cons, foldl_load_settled w, load_settled]

/-- No fetch is dispatched during a window of load calls. -/
theorem foldl_load_fetchLog :
    ∀ (w : List Key) (s : DLState), (w.foldl DLState.load s).fetchLog = s.fetchLog
  | [], _ => rfl
  | k :: w, s => by
    rw [List.foldl_cons, foldl_load_fetchLog w, load_fetchLog]

/-- Cached keys after one load call: the previous ones plus that key. -/
theorem mem_keys_load (s : DLState) (k k' : Key) :
    k' ∈ (s.load k).keys ↔ k' ∈ s.keys ∨ k' = k := by
  unfold DLState.load
  by_cases hk : k ∈ s.keys
  · rw [if_pos hk]
    exact ⟨Or.inl, fun h => h.elim id (fun he => he ▸ hk)⟩
  · rw [if_neg hk]
    show k' ∈ ({ s with pending := s.pending ++ [k] } : DLState).keys ↔ _
    simp only [DLState.keys, List.mem_append, List.mem_singleton]
    tauto

/-- Cached keys after a window of load calls: the previous ones plus the
window's keys. -/
theorem mem_keys_foldl_load :
    ∀ (w : List Key) (s : DLState) (k' : Key),
      k' ∈ (w.foldl DLState.load s).keys ↔ k' ∈ s.keys ∨ k' ∈ w
  | [], s, k' => by simp
  | k :: w, s, k' => by
    rw [List.foldl_cons, mem_keys_foldl_load w, mem_keys_load]
    simp [List.mem_cons]
    tauto

/-- Load calls keep the cached keys distinct. -/
theorem keys_nodup_load (s : DLState) (k : Key) (h : s.keys.Nodup) :
    (s.load k).keys.Nodup := by
  by_cases hk : k ∈ s.keys
  · simpa [DLState.load, if_pos hk] using h
  · simp only [DLState.load, if_neg hk]
    have heq : ({ s with pending := s.pending ++ [k] } : DLState).keys
        = s.keys ++ [k] := by
      simp [DLState.keys]
    rw [heq, List.nodup_append]
    refine ⟨h, List.nodup_singleton _, ?_⟩
    intro a ha hak
    rw [List.mem_singleton] at hak
    subst hak
    exact hk ha

/-- Composite form of `keys_nodup_load` over a window. -/
theorem foldl_load_keys_nodup :
    ∀ (w : List Key) (s : DLState), s.keys.Nodup → (w.foldl DLState.load s).keys.Nodup
  | [], _, h => h
  | k :: w, s, h => by
    rw [List.foldl_cons]
    exact foldl_load_keys_nodup w _ (keys_nodup_load s k h)

/-- Zipping a list with its own image lines keys up with their results. -/
theorem zip_self_map {β : Type} (g : Key → β) :
    ∀ p : List Key, p.zip (p.map g) = p.map (fun k => (k, g k))
  | [] => rfl
  | k :: p => by simp [zip_self_map g p]

/-- A settled batch settles exactly the batch's keys, in order. -/
theorem settleBatch_map_fst (fetch : List Key → Except String (List RecRow))
    (p : List Key) : (settleBatch fetch p).map Prod.fst = p := by
  unfold settleBatch
  cases h : fetch p with
  | ok items =>
    simp only [createByIdLoaderBatch, zip_self_map, List.map_map]
    show List.map (fun k : Key => k) p = p
    simp
  | error e =>
    simp only [List.map_map]
    show List.map (fun k : Key => k) p = p
    simp

/-- Dispatch preserves the settled-keys/fetch-log correspondence. -/
theorem dispatch_flatten (fetch : List Key → Except String (List RecRow))
    (s : DLState) (h1 : s.settled.map Prod.fst = s.fetchLog.flatten) :
    (s.dispatch fetch).settled.map Prod.fst
      = (s.dispatch fetch).fetchLog.flatten := by
  unfold DLState.dispatch; split
  · exact h1
  · simp [List.map_append, settleBatch_map_fst, h1]

/-- Dispatch preserves distinctness of the cached keys. -/
theorem dispatch_keys_nodup (fetch : List Key → Except String (List RecRow))
    (s : DLState) (h2 : s.keys.Nodup) : (s.dispatch fetch).keys.Nodup := by
  unfold DLState.dispatch; split
  · exact h2
  · have heq : (⟨s.settled ++ settleBatch fetch s.pending, [],
        s.fetchLog ++ [s.pending]⟩ : DLState).keys = s.keys := by
      simp [DLState.keys, List.map_append, settleBatch_map_fst]
    rw [heq]
    exact h2

/-- The two loader invariants hold after any window. -/
theorem runWindow_invariant (fetch : List Key → Except String (List RecRow))
    (s : DLState) (w : List Key)
    (h1 : s.settled.map Prod.fst = s.fetchLog.flatten) (h2 : s.keys.Nodup) :
    (runWindow fetch s w).settled.map Prod.fst
        = (runWindow fetch s w).fetchLog.flatten
      ∧ (runWindow fetch s w).keys.Nodup := by
  unfold runWindow
  refine ⟨dispatch_flatten fetch _ ?_, dispatch_keys_nodup fetch _ ?_⟩
  · rw [foldl_load_settled, foldl_load_fetchLog]
    exact h1
  · exact foldl_load_keys_nodup w s h2

/-- The two loader invariants hold after any per-request execution. -/
theorem runLoader_invariant (fetch : List Key → Except String (List RecRow))
    (script : List (List Key)) :
    (runLoader fetch script).settled.map Prod.fst
        = (runLoader fetch script).fetchLog.flatten
      ∧ (runLoader fetch script).keys.Nodup := by
  unfold runLoader
  have main : ∀ (sc : List (List Key)) (s : DLState),
      s.settled.map Prod.fst = s.fetchLog.flatten → s.keys.Nodup →
      (sc.foldl (runWindow fetch) s).settled.map Prod.fst
          = (sc.foldl (runWindow fetch) s).fetchLog.flatten
        ∧ (sc.foldl (runWindow fetch) s).keys.Nodup := by
    intro sc
    induction sc with
    | nil => intro s h1 h2; exact ⟨h1, h2⟩
    | cons w sc ih =>
      intro s h1 h2
      rw [List.foldl_cons]
      have hw := runWindow_invariant fetch s w h1 h2
      exact ih _ hw.1 hw.2
  exact main script initDL rfl (by simp [initDL, DLState.keys])

/-- In a list of pairs with distinct keys, a key determines its value. -/
theorem nodup_fst_pair_unique {β : Type} :
    ∀ (l : List (Key × β)), (l.map Prod.fst).Nodup →
      ∀ (k : Key) (o₁ o₂ : β), (k, o₁) ∈ l → (k, o₂) ∈ l → o₁ = o₂
  | [], _, _, _, _, h, _ => absurd h (List.not_mem_nil _)
  | p :: l, h, k, o₁, o₂, h1, h2 => by
    rw [List.map_cons, List.nodup_cons] at h
    rcases List.mem_cons.1 h1 with h1' | h1' <;>
      rcases List.mem_cons.1 h2 with h2' | h2'
    · exact congrArg Prod.snd (h1'.trans h2'.symm)
    · exfalso
      apply h.1
      have hk : p.1 = k := by rw [← h1']
      rw [hk]
      exact List.mem_map_of_mem Prod.fst h2'
    · exfalso
      apply h.1
      have hk : p.1 = k := by rw [← h2']
      rw [hk]
      exact List.mem_map_of_mem Prod.fst h1'
    · exact nodup_fst_pair_unique l h.2 k o₁ o₂ h1' h2'

/-- If the concatenation of the fetched key lists has no duplicate, no key
appears in more than one fetch. -/
theorem countP_le_one_of_flatten_nodup :
    ∀ (L : List (List Key)) (k : Key), L.flatten.Nodup →
      L.countP (fun c => decide (k ∈ c)) ≤ 1
  | [], _, _ => by simp
  | c :: L, k, h => by
    rw [List.flatten_cons, List.nodup_append] at h
    by_cases hk : k ∈ c
    · have h0 : L.countP (fun c' => decide (k ∈ c')) = 0 := by
        rw [List.countP_eq_zero]
        intro c' hc'
        simp only [decide_eq_true_eq]
        intro hk'
        exact h.2.2 hk (List.mem_flatten.2 ⟨c', hc', hk'⟩)
      simp [List.countP_cons, hk, h0]
    · have hc : decide (k ∈ c) = false := by simp [hk]
      rw [List.countP_cons, hc]
      simpa using countP_le_one_of_flatten_nodup L k h.2.1

/-- C1: all load calls of one synchronous batch window coalesce into exactly
one dispatched fetch, which receives exactly the deduplicated keys — as many
as there are distinct requested keys, never more than the number of calls. -/
theorem single_fetch_dedup (fetch : List Key → Except String (List RecRow))
    (ks : List Key) (hks : ks ≠ []) :
    ∃ D : List Key, (runLoader fetch [ks]).fetchLog = [D]
      ∧ D.Nodup
      ∧ (∀ k, k ∈ D ↔ k ∈ ks)
      ∧ D.length = ks.toFinset.card
      ∧ ks.toFinset.card ≤ ks.length := by
  have hset : (ks.foldl DLState.load initDL).settled = [] :=
    foldl_load_settled ks initDL
  have hlog : (ks.foldl DLState.load initDL).fetchLog = [] :=
    foldl_load_fetchLog ks initDL
  have hkeys : ∀ k, k ∈ (ks.foldl DLState.load initDL).keys ↔ k ∈ ks := by
    intro k
    rw [mem_keys_foldl_load]
    simp [initDL, DLState.keys]
  have hnodup : (ks.foldl DLState.load initDL).keys.Nodup :=
    foldl_load_keys_nodup ks initDL (by simp [initDL, DLState.keys])
  have hpendkeys : (ks.foldl DLState.load initDL).keys
      = (ks.foldl DLState.load initDL).pending := by
    simp [DLState.keys, hset]
  have hpend : ¬ (ks.foldl DLState.load initDL).pending.isEmpty = true := by
    obtain ⟨k, hk⟩ := List.exists_mem_of_ne_nil ks hks
    have : k ∈ (ks.foldl DLState.load initDL).pending :=
      hpendkeys ▸ (hkeys k).2 hk
    intro he
    rw [List.isEmpty_iff] at he
    rw [he] at this
    exact List.not_mem_nil k this
  have hmem : ∀ k, k ∈ (ks.foldl DLState.load initDL).pending ↔ k ∈ ks := by
    intro k
    rw [← hpendkeys]
    exact hkeys k
  have hnd : (ks.foldl DLState.load initDL).pending.Nodup := hpendkeys ▸ hnodup
  refine ⟨(ks.foldl DLState.load initDL).pending, ?_, hnd, hmem, ?_,
    List.toFinset_card_le _⟩
  · show (runWindow fetch initDL ks).fetchLog = _
    unfold runWindow DLState.dispatch
    rw [if_neg hpend, hlog]
    rfl
  · have hfin : (ks.foldl DLState.load initDL).pending.toFinset = ks.toFinset := by
      apply Finset.ext
      intro k
      simp only [List.mem_toFinset]
      exact hmem k
    rw [← hfin, List.toFinset_card_of_nodup hnd]

/-- Witness for C1: five load calls over three distinct keys dispatch one
fetch carrying the three deduplicated keys. -/
theorem single_fetch_dedup_witness :
    ∃ D : List Key, (runLoader (fun _ => Except.ok []) [[1, 2, 1, 2, 3]]).fetchLog = [D]
      ∧ D.Nodup
      ∧ (∀ k, k ∈ D ↔ k ∈ [(1 : Key), 2, 1, 2, 3])
      ∧ D.length = ([(1 : Key), 2, 1, 2, 3]).toFinset.card
      ∧ ([(1 : Key), 2, 1, 2, 3]).toFinset.card
          ≤ ([(1 : Key), 2, 1, 2, 3]).length :=
  single_fetch_dedup (fun _ => Except.ok []) [1, 2, 1, 2, 3] (by decide)

/-- C2: within one request, a key is fetched at most once across all batch
windows (a repeated load after the original batch settled hits the cache),
the cache holds one entry per key, and any two loads of the same key observe
the same settled outcome. -/
theorem load_cached_per_request (fetch : List Key → Except String (List RecRow))
    (script : List (List Key)) (k : Key) :
    (runLoader fetch script).fetchLog.countP (fun c => decide (k ∈ c)) ≤ 1
    ∧ ((runLoader fetch script).settled.map Prod.fst).Nodup
    ∧ (∀ o₁ o₂ : Except String (Option RecRow),
        (k, o₁) ∈ (runLoader fetch script).settled →
        (k, o₂) ∈ (runLoader fetch script).settled → o₁ = o₂) := by
  have inv := runLoader_invariant fetch script
  have hfstnd : ((runLoader fetch script).settled.map Prod.fst).Nodup := by
    have := inv.2
    rw [DLState.keys, List.nodup_append] at this
    exact this.1
  refine ⟨?_, hfstnd, fun o₁ o₂ h1 h2 =>
    nodup_fst_pair_unique _ hfstnd k o₁ o₂ h1 h2⟩
  apply countP_le_one_of_flatten_nodup
  rw [← inv.1]
  exact hfstnd

/-- Witness for C2: loading key 5, letting the batch settle, and loading it
again in a later window fetches it only once and yields the same outcome. -/
theorem load_cached_per_request_witness :
    (runLoader (fun _ => Except.ok [⟨5, 55⟩]) [[5], [5]]).fetchLog.countP
        (fun c => decide ((5 : Key) ∈ c)) ≤ 1
    ∧ (Except.ok (some (⟨5, 55⟩ : RecRow)) : Except String (Option RecRow))
        = Except.ok (some ⟨5, 55⟩) := by
  refine ⟨(load_cached_per_request (fun _ => Except.ok [⟨5, 55⟩]) [[5], [5]] 5).1,
    (load_cached_per_request (fun _ => Except.ok [⟨5, 55⟩]) [[5], [5]] 5).2.2
      (Except.ok (some ⟨5, 55⟩)) (Except.ok (some ⟨5, 55⟩)) ?_ ?_⟩ <;> decide

/-! ### C6 — one-to-many grouping, ordering, and empty defaulting -/

/-- Setting a key then reading it back gives the new binding. -/
theorem lookup_assocSet_self {α : Type} (k : Int) (v : List α) :
    ∀ m : List (Int × List α), (assocSet m k v).lookup k = some v
  | [] => by simp [assocSet, List.lookup]
  | (k₀, v₀) :: rest => by
    by_cases h : k₀ = k
    · subst h
      simp [assocSet, List.lookup]
    · have hb : (k₀ == k) = false := by simp [h]
      have hb' : (k == k₀) = false := by simp [Ne.symm h]
      simp only [assocSet, hb, Bool.false_eq_true, if_false, List.lookup, hb']
      exact lookup_assocSet_self k v rest

/-- Setting a key leaves every other binding unchanged. -/
theorem lookup_assocSet_ne {α : Type} (k k' : Int) (v : List α) (h : k' ≠ k) :
    ∀ m : List (Int × List α), (assocSet m k v).lookup k' = m.lookup k'
  | [] => by
    have hb : (k' == k) = false := by simp [h]
    simp [assocSet, List.lookup, hb]
  | (k₀, v₀) :: rest => by
    by_cases h₀ : k₀ = k
    · subst h₀
      have hb : (k' == k₀) = false := by simp [h]
      simp [assocSet, List.lookup, hb]
    · have hb : (k₀ == k) = false := by simp [h₀]
      by_cases h₁ : k' = k₀
      · subst h₁
        simp [assocSet, hb, List.lookup]
      · have hb₁ : (k' == k₀) = false := by simp [h₁]
        simp only [assocSet, hb, Bool.false_eq_true, if_false, List.lookup, hb₁]
        exact lookup_assocSet_ne k k' v h rest

/-- What the grouping loop accumulates under one key, relative to a starting
map: the starting binding extended by the matching elements in input order. -/
theorem lookup_groupFold_aux {α : Type} (key : α → Int) (k : Int) :
    ∀ (xs : List α) (m : List (Int × List α)),
      ((xs.foldl (fun m x =>
          assocSet m (key x) (((m.lookup (key x)).getD []) ++ [x])) m).lookup
        k).getD []
      = ((m.lookup k).getD []) ++ xs.filter (fun x => key x == k)
  | [], m => by simp
  | x :: xs, m => by
    rw [List.foldl_cons, lookup_groupFold_aux key k xs]
    by_cases h : key x = k
    · rw [h, lookup_assocSet_self]
      simp [List.filter_cons, h]
    · rw [lookup_assocSet_ne _ _ _ (fun hk => h hk.symm)]
      simp [List.filter_cons, h]

/-- The list the grouping loop associates with a key is exactly the
order-preserving filter of the input. -/
theorem lookup_groupFold {α : Type} (key : α → Int) (xs : List α) (k : Int) :
    ((groupFold key xs).lookup k).getD [] = xs.filter (fun x => key x == k) := by
  simpa using lookup_groupFold_aux key k xs []

/-- Inserting an element that precedes a whole list puts it in front. -/
theorem orderedInsert_of_forall {α : Type} (r : α → α → Prop) [DecidableRel r]
    (x : α) : ∀ t : List α, (∀ z ∈ t, r x z) →
      List.orderedInsert r x t = x :: t
  | [], _ => rfl
  | z :: t, h => by
    rw [List.orderedInsert, if_pos (h z (List.mem_cons_self z t))]

/-- Filtering commutes with ordered insertion into a sorted list: the
element survives in its ordered position when it passes the filter and
vanishes otherwise. -/
theorem filter_orderedInsert {α : Type} (r : α → α → Prop) [DecidableRel r]
    [IsTrans α r] (p : α → Bool) (x : α) :
    ∀ s : List α, s.Sorted r →
      (List.orderedInsert r x s).filter p
        = if p x then List.orderedInsert r x (s.filter p) else s.filter p
  | [], _ => by
    by_cases hp : p x <;> simp [List.orderedInsert, List.filter_cons, hp]
  | y :: s, hs => by
    have hs' : s.Sorted r := hs.of_cons
    have hy : ∀ z ∈ s, r y z := fun z hz => List.rel_of_sorted_cons hs z hz
    by_cases hxy : r x y
    · by_cases hp : p x
      · by_cases hpy : p y
        · simp [List.orderedInsert, hxy, List.filter_cons, hp, hpy]
        · simp only [List.orderedInsert, hxy, if_true, if_pos hp,
            List.filter_cons, hp, hpy, Bool.false_eq_true, if_false, if_pos]
          refine (orderedInsert_of_forall r x (s.filter p) ?_).symm
          intro z hz
          exact IsTrans.trans x y z hxy (hy z (List.mem_of_mem_filter hz))
      · simp [List.orderedInsert, hxy, List.filter_cons, hp]
    · have IH := filter_orderedInsert r p x s hs'
      by_cases hp : p x
      · rw [if_pos hp] at IH
        by_cases hpy : p y <;>
          simp [List.orderedInsert, hxy, List.filter_cons, hp, hpy, IH]
      · rw [if_neg hp] at IH
        by_cases hpy : p y <;>
          simp [List.orderedInsert, hxy, List.filter_cons, hp, hpy, IH]

/-- Filtering commutes with the stable insertion sort. -/
theorem filter_insertionSort {α : Type} (r : α → α → Prop) [DecidableRel r]
    [IsTrans α r] [IsTotal α r] (p : α → Bool) :
    ∀ l : List α,
      (List.insertionSort r l).filter p = List.insertionSort r (l.filter p)
  | [] => rfl
  | a :: l => by
    rw [List.insertionSort,
      filter_orderedInsert r p a _ (List.sorted_insertionSort r l)]
    by_cases hp : p a
    · rw [if_pos hp, filter_insertionSort r p l, List.filter_cons,
        if_pos (by simpa using hp), List.insertionSort]
    · rw [if_neg hp, filter_insertionSort r p l, List.filter_cons,
        if_neg (by simpa using hp)]

/-- C6 (amended): every parent key gets exactly one group; `storiesByIssueId`
resolves each parent to exactly the unpaginated direct single-parent fetch —
sorted by `sequenceNumber`, empty when the parent has no live children —
while `creditsByStoryId` resolves each parent to the order-preserving filter
of whatever the fetch returned (empty default, no intra-group ordering). -/
theorem storiesByIssueId_contract (db : List Story) (ids : List Key) :
    (storiesByIssueIdBatch db ids).length = ids.length
    ∧ (∀ (i : Nat) (id : Key), ids[i]? = some id →
        (storiesByIssueIdBatch db ids)[i]? = some (storiesForIssueDirect db id))
    ∧ (∀ id : Key, (∀ st ∈ db, ¬(st.issueId = id ∧ st.deleted = 0)) →
        storiesForIssueDirect db id = [])
    ∧ (∀ id : Key, (storiesForIssueDirect db id).Sorted storySeqLe)
    ∧ (∀ (cdb : List StoryCredit) (sids : List Key) (i : Nat) (sid : Key),
        sids[i]? = some sid →
        (creditsByStoryIdBatch cdb sids)[i]?
          = some (cdb.filter (fun c => c.storyId == sid && c.deleted == 0))) := by
  refine ⟨List.length_map _ _, ?_, ?_, ?_, ?_⟩
  · intro i id hid
    have hmem : id ∈ ids := by
      obtain ⟨hl, rfl⟩ := List.getElem?_eq_some_iff.1 hid
      exact List.getElem_mem hl
    unfold storiesByIssueIdBatch
    rw [List.getElem?_map, hid]
    show some _ = some _
    congr 1
    beta_reduce
    rw [lookup_groupFold, filter_insertionSort storySeqLe]
    unfold storiesForIssueDirect
    congr 1
    rw [List.filter_filter]
    apply List.filter_congr
    intro st _
    by_cases h1 : st.issueId = id
    · have hc : ids.contains st.issueId = true := by
        rw [h1]
        simp [List.contains]
        exact hmem
      simp [h1, hc]
      intro _
      exact hmem
    · have hb : (st.issueId == id) = false := by simp [h1]
      simp [hb]
  · intro id h
    unfold storiesForIssueDirect
    have hnil : db.filter (fun st => st.issueId == id && st.deleted == 0) = [] := by
      rw [List.filter_eq_nil_iff]
      intro st hst
      simp only [Bool.and_eq_true, beq_iff_eq]
      rintro ⟨h1, h2⟩
      exact h st hst ⟨h1, h2⟩
    rw [hnil]
    rfl
  · intro id
    exact List.sorted_insertionSort storySeqLe _
  · intro cdb sids i sid hid
    have hmem : sid ∈ sids := by
      obtain ⟨hl, rfl⟩ := List.getElem?_eq_some_iff.1 hid
      exact List.getElem_mem hl
    unfold creditsByStoryIdBatch
    rw [List.getElem?_map, hid]
    show some _ = some _
    congr 1
    beta_reduce
    rw [lookup_groupFold, List.filter_filter]
    apply List.filter_congr
    intro c _
    by_cases h1 : c.storyId = sid
    · have hc : sids.contains c.storyId = true := by
        rw [h1]
        simp [List.contains]
        exact hmem
      simp [h1, hc]
      intro _
      exact hmem
    · have hb : (c.storyId == sid) = false := by simp [h1]
      simp [hb]

/-- Witness for C6: two stories of issue 1, fetched with sequence numbers 2
then 1, group into the sequence-sorted single-parent result. -/
theorem storiesByIssueId_contract_witness :
    (storiesByIssueIdBatch [⟨1, 1, 2, 0⟩, ⟨2, 1, 1, 0⟩] [1])[0]?
      = some (storiesForIssueDirect [⟨1, 1, 2, 0⟩, ⟨2, 1, 1, 0⟩] 1) :=
  (storiesByIssueId_contract [⟨1, 1, 2, 0⟩, ⟨2, 1, 1, 0⟩] [1]).2.1 0 1 (by decide)

/-! ### C9 — error classification and logging multiplicity -/

/-- Log lines of an operation split per field. -/
theorem runOperation_cons (production : Bool) (f : Except ThrownErr Nat)
    (fields : List (Except ThrownErr Nat)) :
    (runOperation production (f :: fields)).1
      = (runOperation production [f]).1 ++ (runOperation production fields).1 := by
  simp [runOperation]

/-- A single field failing with a non-GraphQL error produces two log lines:
one in its wrapper, one at the boundary. -/
theorem runOperation_raw_single (production : Bool) (s : String) :
    (runOperation (α := Nat) production
      [Except.error (ThrownErr.raw s)]).1.length = 2 := by
  cases production <;> rfl

/-- C9 (amended): a `GraphQLError` passes through the per-field wrapper and,
when its code is not INTERNAL_SERVER_ERROR, through the boundary hook
unchanged and unlogged; any other error is logged and replaced with the
generic internal error in the per-field wrapper — once per failing resolver
invocation, so an operation with `n` such failures produces `2·n` log lines
(wrapper plus boundary each), with the boundary stripping the message only
in production mode. -/
theorem error_classification_contract (production : Bool) (e : GraphQLErr)
    (d m : String) :
    withErrorHandling (α := Nat) (Except.error (ThrownErr.gql e)) = ([], .error e)
    ∧ withErrorHandling (α := Nat) (Except.error (ThrownErr.raw d))
        = ([d], .error ⟨"An internal error occurred.", "INTERNAL_SERVER_ERROR"⟩)
    ∧ (e.code ≠ "INTERNAL_SERVER_ERROR" → formatError production e = ([], e))
    ∧ formatError true ⟨m, "INTERNAL_SERVER_ERROR"⟩
        = (["Internal server error in resolver"],
           ⟨"An internal error occurred.", "INTERNAL_SERVER_ERROR"⟩)
    ∧ formatError false ⟨m, "INTERNAL_SERVER_ERROR"⟩
        = (["Internal server error in resolver"], ⟨m, "INTERNAL_SERVER_ERROR"⟩)
    ∧ (∀ ds : List String,
        (runOperation (α := Nat) production
          (ds.map (fun s => Except.error (ThrownErr.raw s)))).1.length
          = 2 * ds.length) := by
  refine ⟨rfl, rfl, ?_, by simp [formatError], by simp [formatError], ?_⟩
  · intro h
    simp [formatError, h]
  · intro ds
    induction ds with
    | nil => rfl
    | cons s ds ih =>
      rw [List.map_cons, runOperation_cons, List.length_append, ih,
        runOperation_raw_single, List.length_cons]
      omega

/-- Witness for C9: a NOT_FOUND error passes the boundary untouched, and one
raw failure in a one-field operation yields exactly two log lines. -/
theorem error_classification_contract_witness :
    formatError true ⟨"boom", "NOT_FOUND"⟩ = ([], ⟨"boom", "NOT_FOUND"⟩)
    ∧ (runOperation (α := Nat) true
        [Except.error (ThrownErr.raw "a")]).1.length = 2 * 1 := by
  refine ⟨(error_classification_contract true ⟨"boom", "NOT_FOUND"⟩ "d" "m").2.2.1
    (by decide), ?_⟩
  simpa using
    (error_classification_contract true ⟨"boom", "NOT_FOUND"⟩ "d" "m").2.2.2.2.2 ["a"]
